import Mathlib

/-!
# docker/infrakit.aws -- the EC2 instance plugin

A shallow embedding of `plugin/instance/instance.go` and the properties of its
tag merging, instance enumeration, provisioning and termination.

Conventions of the embedding

* A Go `map[string]string` is an association list with pairwise distinct keys
  (`AList`); `range` visits the entries in list order, and every statement
  below is quantified over all such orders.
* A Go pointer field (`*string`, `*int64`, `*ec2.InstanceState`) is an `Option`;
  dereferencing `none` is a run-time panic, recorded as `Outcome.fault`.
  A nil slice is the empty list.
* The network interfaces of a create-instance request are decoded from the
  caller's JSON payload, where an array element may be `null`: the slice
  `[]*ec2.InstanceNetworkInterfaceSpecification` is a list of `Option`s.  The
  slices of struct pointers in a provider response are filled by the SDK, which
  yields no nil element: they are lists of structures.
* The provider is an arbitrary implementation of the `ec2iface.EC2API`
  methods the plugin calls: a state-passing function for each method over an
  abstract provider state.  The embedding records every call the plugin issues
  (and every sleep) in a log carried next to the provider state.
* Unbounded loops and the recursion over result pages take a fuel argument;
  running out of fuel is `Outcome.unfinished`.
* Log emissions (`log.Warnf`, `log.Infof`) are not modelled, except for the
  dereference needed to evaluate their arguments.
-/

namespace InfrakitAws

/-! ## Go values -/

/-- A Go `map[string]string`. -/
abbrev StringMap := AList (fun _ : String => String)

/-- The map index expression `m[k]`: the zero value when the key is absent. -/
def index (m : StringMap) (k : String) : String := (m.lookup k).getD ""

/-- A Go `error` value.  `awsCode` is `Code()` when the value implements
`awserr.Error`, and `none` when the type assertion `err.(awserr.Error)` fails. -/
structure GoError where
  awsCode : Option String
  text : String
deriving DecidableEq, Repr

/-- The function `errors.New`. -/
def errorsNew (text : String) : GoError := { awsCode := none, text := text }

/-- How a Go call ends: it returns, it panics, or (fuel exhausted) it is still
running. -/
inductive Outcome (α : Type) where
  | ret (a : α)
  | fault (reason : String)
  | unfinished
deriving DecidableEq, Repr

/-! ## Strings: ordering, bytes, base64 (Go standard library) -/

/-- Lexicographic comparison of two character sequences by code point. -/
def lexLess : List Char → List Char → Bool
  | [], [] => false
  | [], _ :: _ => true
  | _ :: _, [] => false
  | a :: as, b :: bs => decide (a < b) || (decide (a = b) && lexLess as bs)

/-- Go's `a < b` on strings.  Go compares byte-wise; on UTF-8 text that is the
code point order computed here. -/
def stringLess (a b : String) : Bool := lexLess a.toList b.toList

/-- Insertion of one key into an ascending slice. -/
def insertSorted (k : String) : List String → List String
  | [] => [k]
  | x :: xs => if stringLess x k then x :: insertSorted k xs else k :: x :: xs

/-- The function `sort.Strings`: the ascending rearrangement of the slice. -/
def sortStrings : List String → List String
  | [] => []
  | k :: ks => insertSorted k (sortStrings ks)

/-- UTF-8 encoding of one code point. -/
def utf8Encode (c : Nat) : List Nat :=
  if c < 128 then [c]
  else if c < 2048 then [192 + c / 64, 128 + c % 64]
  else if c < 65536 then [224 + c / 4096, 128 + (c / 64) % 64, 128 + c % 64]
  else [240 + c / 262144, 128 + (c / 4096) % 64, 128 + (c / 64) % 64, 128 + c % 64]

/-- The conversion `[]byte(s)`. -/
def stringBytes (s : String) : List Nat := s.toList.flatMap (fun c => utf8Encode c.toNat)

/-- The standard base64 alphabet. -/
def base64Alphabet : List Char :=
  "ABCDEFGHIJKLMNOPQRSTUVWXYZabcdefghijklmnopqrstuvwxyz0123456789+/".toList

/-- The alphabet character of a six-bit value. -/
def base64Char (n : Nat) : Char := base64Alphabet.getD n '='

/-- Base64 of a byte sequence, three bytes to four characters, padded with '='. -/
def base64Chars : List Nat → List Char
  | [] => []
  | [a] => [base64Char (a / 4), base64Char (a % 4 * 16), '=', '=']
  | [a, b] => [base64Char (a / 4), base64Char (a % 4 * 16 + b / 16), base64Char (b % 16 * 4), '=']
  | a :: b :: c :: rest =>
    base64Char (a / 4) :: base64Char (a % 4 * 16 + b / 16) ::
      base64Char (b % 16 * 4 + c / 64) :: base64Char (c % 64) :: base64Chars rest

/-- The call `base64.StdEncoding.EncodeToString([]byte(s))`. -/
def base64Encode (s : String) : String := String.mk (base64Chars (stringBytes s))

/-! ## `mergeTags` -/

/-- One iteration of the inner loop of `mergeTags`: a key seen for the first
time is appended to `keys`; the value is written in either case. -/
def mergeEntry (st : List String × StringMap) (e : Sigma (fun _ : String => String)) :
    List String × StringMap :=
  (if (st.2.lookup e.1).isSome then st.1 else st.1 ++ [e.1], st.2.insert e.1 e.2)

/-- One iteration of the outer loop of `mergeTags`: a `range` over one map. -/
def mergeMap (st : List String × StringMap) (tagMap : StringMap) : List String × StringMap :=
  tagMap.entries.foldl mergeEntry st

/-- The function `mergeTags`: merges the maps, last write wins, and returns the
sorted slice of all keys with the merged map. -/
def mergeTags (tagMaps : List StringMap) : List String × StringMap :=
  let st := tagMaps.foldl mergeMap (([] : List String), (∅ : StringMap))
  (sortStrings st.1, st.2)

/-! ## SDK and SPI types (the fields the plugin reads or writes) -/

/-- The type `instance.Spec` of the plugin interface. -/
structure Spec where
  Properties : Option String
  Tags : StringMap
  Init : String
  LogicalID : Option String
  Attachments : List String
deriving DecidableEq

/-- The type `instance.Description`. -/
structure Description where
  ID : String
  LogicalID : Option String
  Tags : StringMap
deriving DecidableEq

/-- The type `ec2.Tag`. -/
structure Tag where
  Key : Option String
  Value : Option String
deriving DecidableEq, Repr

/-- The type `ec2.Filter`. -/
structure Filter where
  Name : Option String
  Values : List (Option String)
deriving DecidableEq, Repr

/-- The type `ec2.InstanceNetworkInterfaceSpecification`. -/
structure InstanceNetworkInterfaceSpecification where
  DeviceIndex : Option Int
  SubnetId : Option String
  PrivateIpAddress : Option String
deriving DecidableEq, Repr

/-- The type `ec2.RunInstancesInput`. -/
structure RunInstancesInput where
  ImageId : Option String
  InstanceType : Option String
  MinCount : Option Int
  MaxCount : Option Int
  NetworkInterfaces : List (Option InstanceNetworkInterfaceSpecification)
  PrivateIpAddress : Option String
  UserData : Option String
deriving DecidableEq, Repr

/-- The type `CreateInstanceRequest`: the parsed properties payload. -/
structure CreateInstanceRequest where
  Tags : StringMap
  RunInstancesInput : RunInstancesInput
deriving DecidableEq

/-- The type `ec2.InstanceState`. -/
structure InstanceState where
  Name : Option String
deriving DecidableEq, Repr

/-- The type `ec2.Instance`. -/
structure Instance where
  InstanceId : Option String
  PrivateIpAddress : Option String
  State : Option InstanceState
  Tags : List Tag
deriving DecidableEq, Repr

/-- The type `ec2.Reservation`. -/
structure Reservation where
  Instances : List Instance
deriving DecidableEq, Repr

/-- The type `ec2.Volume`. -/
structure Volume where
  VolumeId : Option String
deriving DecidableEq, Repr

/-- The type `ec2.DescribeVolumesInput`. -/
structure DescribeVolumesInput where
  Filters : List Filter
deriving DecidableEq, Repr

/-- The type `ec2.DescribeVolumesOutput`. -/
structure DescribeVolumesOutput where
  Volumes : List Volume
deriving DecidableEq, Repr

/-- The type `ec2.CreateTagsInput`. -/
structure CreateTagsInput where
  Resources : List (Option String)
  Tags : List Tag
deriving DecidableEq, Repr

/-- The type `ec2.DescribeInstancesInput`. -/
structure DescribeInstancesInput where
  InstanceIds : List (Option String)
  Filters : List Filter
  NextToken : Option String
deriving DecidableEq, Repr

/-- The type `ec2.DescribeInstancesOutput`. -/
structure DescribeInstancesOutput where
  Reservations : List Reservation
  NextToken : Option String
deriving DecidableEq, Repr

/-- The type `ec2.AttachVolumeInput`. -/
structure AttachVolumeInput where
  InstanceId : Option String
  VolumeId : Option String
  Device : Option String
deriving DecidableEq, Repr

/-- The type `ec2.TerminateInstancesInput`. -/
structure TerminateInstancesInput where
  InstanceIds : List (Option String)
deriving DecidableEq, Repr

/-- The type `ec2.InstanceStateChange`. -/
structure InstanceStateChange where
  InstanceId : Option String
deriving DecidableEq, Repr

/-- The type `ec2.TerminateInstancesOutput`. -/
structure TerminateInstancesOutput where
  TerminatingInstances : List InstanceStateChange
deriving DecidableEq, Repr

/-! ## The provider -/

/-- What the plugin does to the outside world, in order. -/
inductive Event where
  | describeVolumes (input : DescribeVolumesInput)
  | runInstances (input : RunInstancesInput)
  | createTags (input : CreateTagsInput)
  | describeInstances (input : DescribeInstancesInput)
  | attachVolume (input : AttachVolumeInput)
  | terminateInstances (input : TerminateInstancesInput)
  | sleep (seconds : Nat)
deriving DecidableEq, Repr

/-- The methods of `ec2iface.EC2API` the plugin calls, over a provider state
`σ`.  A method returns its error or its output; `RunInstances` may succeed
with a nil reservation, which the plugin checks for.  The outputs of
`CreateTags` and `AttachVolume` are discarded by the plugin, so only their
error is kept. -/
structure EC2API (σ : Type) where
  DescribeVolumes : DescribeVolumesInput → σ → Except GoError DescribeVolumesOutput × σ
  RunInstances : RunInstancesInput → σ → Except GoError (Option Reservation) × σ
  CreateTags : CreateTagsInput → σ → Option GoError × σ
  DescribeInstances : DescribeInstancesInput → σ → Except GoError DescribeInstancesOutput × σ
  AttachVolume : AttachVolumeInput → σ → Option GoError × σ
  TerminateInstances : TerminateInstancesInput → σ → Except GoError TerminateInstancesOutput × σ

/-- The provider state together with the log of what the plugin has done. -/
structure World (σ : Type) where
  st : σ
  log : List Event
deriving DecidableEq

/-- The type `awsInstancePlugin`. -/
structure awsInstancePlugin (σ : Type) where
  client : EC2API σ
  namespaceTags : StringMap

/-- The constant `VolumeTag`. -/
def VolumeTag : String := "docker-infrakit-volume"

/-! ## `tagInstance` -/

/-- The request `tagInstance` builds: one tag per merged key, in key order,
on the instance's identifier. -/
def tagInstanceInput (namespaceTags : StringMap) (inst : Instance)
    (systemTags userTags : StringMap) : CreateTagsInput :=
  let merged := mergeTags [userTags, systemTags, namespaceTags]
  { Resources := [inst.InstanceId],
    Tags := merged.1.map (fun key => { Key := some key, Value := some (index merged.2 key) }) }

/-- The method `tagInstance`. -/
def tagInstance {σ : Type} (p : awsInstancePlugin σ) (inst : Instance)
    (systemTags userTags : StringMap) (w : World σ) : Option GoError × World σ :=
  let input := tagInstanceInput p.namespaceTags inst systemTags userTags
  let r := p.client.CreateTags input w.st
  (r.1, { st := r.2, log := w.log ++ [Event.createTags input] })

/-! ## `Provision` -/

/-- Lines 110-116 of `Provision`: where the logical ID goes.  The assignment of
line 112 goes through the pointer `NetworkInterfaces[0]` and panics when that
element is nil. -/
def setLogicalID (logicalID : Option String) (input : RunInstancesInput) :
    Outcome RunInstancesInput :=
  match logicalID with
  | none => .ret input
  | some addr =>
    match input.NetworkInterfaces with
    | some first :: rest =>
      .ret { input with
        NetworkInterfaces := some { first with PrivateIpAddress := some addr } :: rest }
    | none :: _ => .fault "nil pointer dereference"
    | [] => .ret { input with PrivateIpAddress := some addr }

/-- Lines 118-125 of `Provision`: the user data. -/
def setUserData (init : String) (input : RunInstancesInput) : RunInstancesInput :=
  let input1 := if init ≠ "" then { input with UserData := some init } else input
  match input1.UserData with
  | some data => { input1 with UserData := some (base64Encode data) }
  | none => input1

/-- Lines 107-125 of `Provision`: the create-instance request made of the
parsed payload and the spec, or the panic of line 112. -/
def provisionInput (spec : Spec) (request : CreateInstanceRequest) :
    Outcome RunInstancesInput :=
  match setLogicalID spec.LogicalID
      { request.RunInstancesInput with MinCount := some 1, MaxCount := some 1 } with
  | .ret input => .ret (setUserData spec.Init input)
  | .fault reason => .fault reason
  | .unfinished => .unfinished

/-- The describe-volumes request of `Provision`, lines 129-145. -/
def volumesInput (spec : Spec) : DescribeVolumesInput :=
  { Filters := [{ Name := some ("tag:" ++ VolumeTag),
                  Values := spec.Attachments.map (fun attachment => some attachment) }] }

/-- One character of a string under the verb `%q` (`strconv.Quote`): the double
quote (34), the backslash (92) and the ASCII control characters are escaped.
Characters outside ASCII are taken to be printable and are written as they
are. -/
def quoteChar (c : Char) : List Char :=
  if c.toNat = 34 then [Char.ofNat 92, c]
  else if c.toNat = 92 then [c, c]
  else if c.toNat = 7 then [Char.ofNat 92, 'a']
  else if c.toNat = 8 then [Char.ofNat 92, 'b']
  else if c.toNat = 12 then [Char.ofNat 92, 'f']
  else if c.toNat = 10 then [Char.ofNat 92, 'n']
  else if c.toNat = 13 then [Char.ofNat 92, 'r']
  else if c.toNat = 9 then [Char.ofNat 92, 't']
  else if c.toNat = 11 then [Char.ofNat 92, 'v']
  else if c.toNat < 32 ∨ c.toNat = 127 then
    [Char.ofNat 92, 'x', "0123456789abcdef".toList.getD (c.toNat / 16) '0',
      "0123456789abcdef".toList.getD (c.toNat % 16) '0']
  else [c]

/-- A string under the verb `%q`. -/
def goQuote (s : String) : String :=
  String.mk (Char.ofNat 34 :: s.toList.flatMap quoteChar ++ [Char.ofNat 34])

/-- A slice under the verb `%s`, its elements already rendered: in brackets,
one blank between two elements. -/
def renderSlice (elements : List String) : String :=
  "[" ++ String.intercalate " " elements ++ "]"

/-- An `ec2.Volume` under the verb `%s`: its `String` method, which is
`awsutil.Prettify`, lists the fields that are not nil, here the one field of
the embedding. -/
def renderVolume (volume : Volume) : String :=
  match volume.VolumeId with
  | some id => "\x7b\n  VolumeId: " ++ goQuote id ++ "\n\x7d"
  | none => "\x7b\n\n\x7d"

/-- The error `Provision` makes when the volumes found are not as many as the
attachments (line 155): `fmt.Errorf` with the attachments and the volumes
under `%s`. -/
def volumeMismatch (spec : Spec) (volumes : DescribeVolumesOutput) : GoError :=
  { awsCode := none,
    text := "Not all required volumes found to attach.  Wanted "
      ++ renderSlice spec.Attachments ++ ", found "
      ++ renderSlice (volumes.Volumes.map renderVolume) }

/-- Lines 127-160 of `Provision`: the volume identifiers to attach, or the
error `Provision` returns. -/
def resolveVolumes {σ : Type} (p : awsInstancePlugin σ) (spec : Spec) (w : World σ) :
    Except GoError (List (Option String)) × World σ :=
  if spec.Attachments.length > 0 then
    let input := volumesInput spec
    let r := p.client.DescribeVolumes input w.st
    let w1 : World σ := { st := r.2, log := w.log ++ [Event.describeVolumes input] }
    match r.1 with
    | .error _ => (.error (errorsNew "Failed while looking up volume"), w1)
    | .ok volumes =>
      if volumes.Volumes.length = spec.Attachments.length then
        (.ok (volumes.Volumes.map (fun volume => volume.VolumeId)), w1)
      else
        (.error (volumeMismatch spec volumes), w1)
  else
    (.ok [], w)

/-- The request of the wait-for-running poll, lines 184-186. -/
def pollInput (instanceId : Option String) : DescribeInstancesInput :=
  { InstanceIds := [instanceId], Filters := [], NextToken := none }

/-- The `for` loop of lines 181-197, at most `fuel` iterations: `true` when
the loop is left by `break` (the instance runs), `false` when it is left by
`return id, nil` (the provider says the instance is not found). -/
def waitRunning {σ : Type} (p : awsInstancePlugin σ) (instanceId : Option String) :
    Nat → World σ → Outcome Bool × World σ
  | 0, w => (.unfinished, w)
  | fuel + 1, w =>
    let input := pollInput instanceId
    let r := p.client.DescribeInstances input w.st
    let w1 : World σ :=
      { st := r.2, log := w.log ++ [Event.sleep 10, Event.describeInstances input] }
    match r.1 with
    | .ok inst =>
      match inst.Reservations with
      | [] => (.fault "index out of range [0] with length 0", w1)
      | reservation :: _ =>
        match reservation.Instances with
        | [] => (.fault "index out of range [0] with length 0", w1)
        | first :: _ =>
          match first.State with
          | none => (.fault "nil pointer dereference", w1)
          | some state =>
            match state.Name with
            | none => (.fault "nil pointer dereference", w1)
            | some name =>
              if name = "running" then (.ret true, w1) else waitRunning p instanceId fuel w1
    | .error err =>
      match err.awsCode with
      | some code =>
        if code = "InvalidInstanceID.NotFound" then (.ret false, w1)
        else waitRunning p instanceId fuel w1
      | none => waitRunning p instanceId fuel w1

/-- The request of one iteration of the attach loop, lines 200-204. -/
def attachInput (instanceId volumeId : Option String) : AttachVolumeInput :=
  { InstanceId := instanceId, VolumeId := volumeId, Device := some "/dev/sdf" }

/-- The attach loop of lines 199-208: the first error ends it. -/
def attachVolumes {σ : Type} (p : awsInstancePlugin σ) (instanceId : Option String) :
    List (Option String) → World σ → Option GoError × World σ
  | [], w => (none, w)
  | awsVolumeID :: rest, w =>
    let input := attachInput instanceId awsVolumeID
    let r := p.client.AttachVolume input w.st
    let w1 : World σ := { st := r.2, log := w.log ++ [Event.attachVolume input] }
    match r.1 with
    | some err => (some err, w1)
    | none => attachVolumes p instanceId rest w1

/-- The method `Provision`.  `unmarshal` is `json.Unmarshal` into a
`CreateInstanceRequest`; `fuel` bounds the iterations of the wait-for-running
loop.  The result is the pair `(*instance.ID, error)`. -/
def Provision {σ : Type} (p : awsInstancePlugin σ)
    (unmarshal : String → Except GoError CreateInstanceRequest)
    (fuel : Nat) (spec : Spec) (w : World σ) :
    Outcome (Option String × Option GoError) × World σ :=
  match spec.Properties with
  | none => (.ret (none, some (errorsNew "Properties must be set")), w)
  | some raw =>
    match unmarshal raw with
    | .error err =>
      (.ret (none, some { awsCode := none, text := "Invalid input formatting: " ++ err.text }), w)
    | .ok request =>
      match provisionInput spec request with
      | .fault reason => (.fault reason, w)
      | .unfinished => (.unfinished, w)
      | .ret input =>
        match resolveVolumes p spec w with
        | (.error err, w1) => (.ret (none, some err), w1)
        | (.ok awsVolumeIDs, w1) =>
          let r := p.client.RunInstances input w1.st
          let w2 : World σ := { st := r.2, log := w1.log ++ [Event.runInstances input] }
          match r.1 with
          | .error err => (.ret (none, some err), w2)
          | .ok none => (.ret (none, some (errorsNew "Unexpected AWS API response")), w2)
          | .ok (some reservation) =>
            match reservation.Instances with
            | [ec2Instance] =>
              let id := ec2Instance.InstanceId
              match tagInstance p ec2Instance spec.Tags request.Tags w2 with
              | (some err, w3) => (.ret (id, some err), w3)
              | (none, w3) =>
                if awsVolumeIDs.length > 0 then
                  match id with
                  | none => (.fault "nil pointer dereference", w3)
                  | some _ =>
                    match waitRunning p id fuel w3 with
                    | (.ret true, w4) =>
                      match attachVolumes p id awsVolumeIDs w4 with
                      | (some err, w5) => (.ret (id, some err), w5)
                      | (none, w5) => (.ret (id, none), w5)
                    | (.ret false, w4) => (.ret (id, none), w4)
                    | (.fault reason, w4) => (.fault reason, w4)
                    | (.unfinished, w4) => (.unfinished, w4)
                else
                  (.ret (id, none), w3)
            | _ => (.ret (none, some (errorsNew "Unexpected AWS API response")), w2)

/-! ## `Destroy` -/

/-- The method `Destroy`. -/
def Destroy {σ : Type} (p : awsInstancePlugin σ) (id : String) (w : World σ) :
    Option GoError × World σ :=
  let input : TerminateInstancesInput := { InstanceIds := [some id] }
  let r := p.client.TerminateInstances input w.st
  let w1 : World σ := { st := r.2, log := w.log ++ [Event.terminateInstances input] }
  match r.1 with
  | .error err => (some err, w1)
  | .ok result =>
    if result.TerminatingInstances.length ≠ 1 then (some (errorsNew "No matching instance"), w1)
    else (none, w1)

/-! ## `DescribeInstances` -/

/-- The function `describeGroupRequest`. -/
def describeGroupRequest (namespaceTags tags : StringMap) (nextToken : Option String) :
    DescribeInstancesInput :=
  let merged := mergeTags [tags, namespaceTags]
  { InstanceIds := [],
    NextToken := nextToken,
    Filters :=
      { Name := some "instance-state-name", Values := [some "pending", some "running"] } ::
        merged.1.map (fun key =>
          { Name := some ("tag:" ++ key), Values := [some (index merged.2 key)] }) }

/-- One iteration of the loop of lines 266-270: a tag with a nil key or a nil
value is skipped, any other is written into the map. -/
def addTag (tags : StringMap) (tag : Tag) : StringMap :=
  match tag.Key, tag.Value with
  | some k, some v => tags.insert k v
  | _, _ => tags

/-- Lines 264-271 of `describeInstances`: the map made of an instance's tag
list. -/
def instanceTags (tags : List Tag) : StringMap :=
  tags.foldl addTag ∅

/-- The inner loop of lines 263-278, over the instances of one reservation,
appending to `descriptions`. -/
def describeReservation : List Instance → List Description → Outcome (List Description)
  | [], descriptions => .ret descriptions
  | ec2Instance :: rest, descriptions =>
    match ec2Instance.InstanceId with
    | none => .fault "nil pointer dereference"
    | some id =>
      describeReservation rest
        (descriptions ++
          [{ ID := id, LogicalID := ec2Instance.PrivateIpAddress,
             Tags := instanceTags ec2Instance.Tags }])

/-- The outer loop of lines 262-279, over the reservations of one page. -/
def describeReservations : List Reservation → List Description → Outcome (List Description)
  | [], descriptions => .ret descriptions
  | reservation :: rest, descriptions =>
    match describeReservation reservation.Instances descriptions with
    | .ret descriptions1 => describeReservations rest descriptions1
    | other => other

/-- The method `describeInstances`; `fuel` bounds the depth of the recursion
over pages. -/
def describeInstances {σ : Type} (p : awsInstancePlugin σ) (tags : StringMap) :
    Nat → Option String → World σ → Outcome (Except GoError (List Description)) × World σ
  | 0, _, w => (.unfinished, w)
  | fuel + 1, nextToken, w =>
    let input := describeGroupRequest p.namespaceTags tags nextToken
    let r := p.client.DescribeInstances input w.st
    let w1 : World σ := { st := r.2, log := w.log ++ [Event.describeInstances input] }
    match r.1 with
    | .error err => (.ret (.error err), w1)
    | .ok result =>
      match describeReservations result.Reservations [] with
      | .ret descriptions =>
        match result.NextToken with
        | some token =>
          match describeInstances p tags fuel (some token) w1 with
          | (.ret (.ok remainingPages), w2) => (.ret (.ok (descriptions ++ remainingPages)), w2)
          | (.ret (.error err), w2) => (.ret (.error err), w2)
          | (.fault reason, w2) => (.fault reason, w2)
          | (.unfinished, w2) => (.unfinished, w2)
        | none => (.ret (.ok descriptions), w1)
      | .fault reason => (.fault reason, w1)
      | .unfinished => (.unfinished, w1)

/-- The method `DescribeInstances`. -/
def DescribeInstances {σ : Type} (p : awsInstancePlugin σ) (fuel : Nat) (tags : StringMap)
    (w : World σ) : Outcome (Except GoError (List Description)) × World σ :=
  describeInstances p tags fuel none w

/-- The method `describeInstance`. -/
def describeInstance {σ : Type} (p : awsInstancePlugin σ) (id : String) (w : World σ) :
    Except GoError Instance × World σ :=
  let input : DescribeInstancesInput :=
    { InstanceIds := [some id], Filters := [], NextToken := none }
  let r := p.client.DescribeInstances input w.st
  let w1 : World σ := { st := r.2, log := w.log ++ [Event.describeInstances input] }
  match r.1 with
  | .error err => (.error err, w1)
  | .ok result =>
    match result.Reservations with
    | [] => (.error (errorsNew "Instance not found"), w1)
    | reservation :: _ =>
      match reservation.Instances with
      | [] => (.error (errorsNew "Instance not found"), w1)
      | first :: _ => (.ok first, w1)

/-! ## Notions used to state the properties -/

/-- The instances of one page, in the order the loops of `describeInstances`
visit them. -/
def pageInstances (page : DescribeInstancesOutput) : List Instance :=
  page.Reservations.flatMap (fun reservation => reservation.Instances)

/-- The provider serves a chain of pages to `describeInstances`: asked with
`token` in state `s` it answers the first page; every page but the last
carries a continuation token, and the query carrying that token, asked in the
state the previous answer left, is answered with the next page; the last page
carries no token. -/
def servesPages {σ : Type} (p : awsInstancePlugin σ) (tags : StringMap) :
    Option String → σ → List DescribeInstancesOutput → Prop
  | _, _, [] => False
  | token, s, page :: rest =>
    (p.client.DescribeInstances (describeGroupRequest p.namespaceTags tags token) s).1 = .ok page
    ∧ match rest with
      | [] => page.NextToken = none
      | next :: more =>
        page.NextToken.isSome = true
        ∧ servesPages p tags page.NextToken
            (p.client.DescribeInstances (describeGroupRequest p.namespaceTags tags token) s).2
            (next :: more)

/-- The queries `describeInstances` issues for a chain of pages: the first with
`token`, each further one with the token of the page before it. -/
def pageQueries (namespaceTags tags : StringMap) :
    Option String → List DescribeInstancesOutput → List Event
  | _, [] => []
  | token, page :: rest =>
    Event.describeInstances (describeGroupRequest namespaceTags tags token)
      :: pageQueries namespaceTags tags page.NextToken rest

/-- What the claim says a description is of an instance: its ID is the
instance id, its LogicalID the private address, and its Tags are the
instance's tags.  The instance's tags are the tags of its tag list that have
both a key and a value; a key written more than once has the value written
last. -/
def Describes (d : Description) (i : Instance) : Prop :=
  some d.ID = i.InstanceId
  ∧ d.LogicalID = i.PrivateIpAddress
  ∧ (∀ k, k ∈ d.Tags ↔ ∃ tag ∈ i.Tags, tag.Key = some k ∧ tag.Value.isSome = true)
  ∧ (∀ (k v : String) (before : List Tag) (tag : Tag) (after : List Tag),
      i.Tags = before ++ tag :: after → tag.Key = some k → tag.Value = some v →
      (∀ t ∈ after, t.Key = some k → t.Value = none) →
      d.Tags.lookup k = some v)

/-! ## Concrete scenarios -/

/-- A provider stub with fixed answers.  Its state counts the calls it has
received; the answer to a describe-instances call may depend on the request and
on that count. -/
structure Stub where
  volumes : Except GoError DescribeVolumesOutput
  run : Except GoError (Option Reservation)
  tag : Option GoError
  describe : DescribeInstancesInput → Nat → Except GoError DescribeInstancesOutput
  attach : Option GoError
  terminate : Except GoError TerminateInstancesOutput

/-- The client of a stub. -/
def Stub.client (b : Stub) : EC2API Nat :=
  { DescribeVolumes := fun _ n => (b.volumes, n + 1),
    RunInstances := fun _ n => (b.run, n + 1),
    CreateTags := fun _ n => (b.tag, n + 1),
    DescribeInstances := fun input n => (b.describe input n, n + 1),
    AttachVolume := fun _ n => (b.attach, n + 1),
    TerminateInstances := fun _ n => (b.terminate, n + 1) }

/-- The plugin over a stub, with no namespace tags. -/
def Stub.plugin (b : Stub) : awsInstancePlugin Nat :=
  { client := b.client, namespaceTags := ∅ }

/-- A running instance record. -/
def instanceOf (id address : String) : Instance :=
  { InstanceId := some id, PrivateIpAddress := some address,
    State := some { Name := some "running" },
    Tags := [{ Key := some "name", Value := some id }] }

/-- A stub on which every call succeeds: one volume, one created instance
`i-1`, an instance that runs at the first poll, one terminating instance. -/
def happyStub : Stub :=
  { volumes := .ok { Volumes := [{ VolumeId := some "vol-1" }] },
    run := .ok (some { Instances := [instanceOf "i-1" "10.0.0.5"] }),
    tag := none,
    describe := fun _ _ =>
      .ok { Reservations := [{ Instances := [instanceOf "i-1" "10.0.0.5"] }], NextToken := none },
    attach := none,
    terminate := .ok { TerminatingInstances := [{ InstanceId := some "i-1" }] } }

/-- An empty create-instance payload. -/
def emptyInput : RunInstancesInput :=
  { ImageId := none, InstanceType := none, MinCount := none, MaxCount := none,
    NetworkInterfaces := [], PrivateIpAddress := none, UserData := none }

/-- A decoder that yields the given request for every payload. -/
def decodeAs (request : CreateInstanceRequest) : String → Except GoError CreateInstanceRequest :=
  fun _ => .ok request

/-- A spec with a payload and nothing else. -/
def plainSpec : Spec :=
  { Properties := some "payload", Tags := ∅, Init := "", LogicalID := none, Attachments := [] }

/-- Three tag sources sharing the key `k`. -/
def tagsA : StringMap := (AList.singleton "k" "a").insert "z" "1"

/-- The second source. -/
def tagsB : StringMap := (AList.singleton "k" "b").insert "b" "2"

/-- The third source. -/
def tagsC : StringMap := AList.singleton "k" "c"

/-- The first source with its entries in the other order. -/
def tagsA2 : StringMap := (AList.singleton "z" "1").insert "k" "a"

/-- Three pages of two instances each, chained by the tokens `t1` and `t2`. -/
def threePages : List DescribeInstancesOutput :=
  [ { Reservations := [{ Instances := [instanceOf "i-1" "10.0.0.1", instanceOf "i-2" "10.0.0.2"] }],
      NextToken := some "t1" },
    { Reservations := [{ Instances := [instanceOf "i-3" "10.0.0.3"] },
                       { Instances := [instanceOf "i-4" "10.0.0.4"] }],
      NextToken := some "t2" },
    { Reservations := [{ Instances := [instanceOf "i-5" "10.0.0.5", instanceOf "i-6" "10.0.0.6"] }],
      NextToken := none } ]

/-- A stub that answers a describe-instances query by its continuation token. -/
def pagedStub : Stub :=
  { happyStub with
    describe := fun input _ =>
      match input.NextToken with
      | none => .ok (threePages.getD 0 { Reservations := [], NextToken := none })
      | some token =>
        if token = "t1" then .ok (threePages.getD 1 { Reservations := [], NextToken := none })
        else if token = "t2" then .ok (threePages.getD 2 { Reservations := [], NextToken := none })
        else .error (errorsNew "unknown token") }

/-- A spec asking for two attachments. -/
def twoVolumeSpec : Spec := { plainSpec with Attachments := ["10.0.0.5", "10.0.0.6"] }

/-- The error of a failing create-tags call. -/
def tagFailure : GoError := { awsCode := some "RequestLimitExceeded", text := "throttled" }

/-- A stub whose create-tags call fails. -/
def tagFailStub : Stub := { happyStub with tag := some tagFailure }

/-- A payload that asks for five to nine instances. -/
def manyRequest : CreateInstanceRequest :=
  { Tags := ∅, RunInstancesInput := { emptyInput with MinCount := some 5, MaxCount := some 9 } }

/-- A spec with a logical ID. -/
def addressedSpec : Spec := { plainSpec with LogicalID := some "10.0.0.5" }

/-- A payload that declares one network interface and also sets the top-level
private address, to the address the spec has as logical ID. -/
def bothPlacesRequest : CreateInstanceRequest :=
  { Tags := ∅,
    RunInstancesInput :=
      { emptyInput with
        PrivateIpAddress := some "10.0.0.5",
        NetworkInterfaces :=
          [some { DeviceIndex := some 0, SubnetId := some "subnet-1",
                  PrivateIpAddress := none }] } }

/-- A payload that carries user data of its own. -/
def userDataRequest : CreateInstanceRequest :=
  { Tags := ∅, RunInstancesInput := { emptyInput with UserData := some "x" } }

/-- A spec with the initialization script `echo hi`. -/
def initSpec : Spec := { plainSpec with Init := "echo hi" }

/-- A payload with nothing set. -/
def emptyRequest : CreateInstanceRequest := { Tags := ∅, RunInstancesInput := emptyInput }

/-- A spec asking for one attachment. -/
def oneVolumeSpec : Spec := { plainSpec with Attachments := ["10.0.0.5"] }

/-- A stub whose describe-instances call succeeds with no reservation. -/
def emptyPollStub : Stub :=
  { happyStub with describe := fun _ _ => .ok { Reservations := [], NextToken := none } }

/-- A stub whose terminate call reports the given instances. -/
def terminateStub (ids : List String) : Stub :=
  { happyStub with
    terminate := .ok { TerminatingInstances := ids.map (fun id => { InstanceId := some id }) } }

/-- The create-instance request issued for `addressedSpec` with
`bothPlacesRequest`: the address at the top level, as the payload has it, and on the
interface, where `Provision` writes the logical ID. -/
def bothPlacesIssued : RunInstancesInput :=
  { emptyInput with
    MinCount := some 1,
    MaxCount := some 1,
    PrivateIpAddress := some "10.0.0.5",
    NetworkInterfaces :=
      [some { DeviceIndex := some 0, SubnetId := some "subnet-1",
              PrivateIpAddress := some "10.0.0.5" }] }

/-- The create-instance request issued for `plainSpec` with `userDataRequest`:
the payload's user data, encoded. -/
def userDataIssued : RunInstancesInput :=
  { emptyInput with MinCount := some 1, MaxCount := some 1, UserData := some "eA==" }

/-- The payload whose network interface array is `[null]`: one declared
interface, a nil pointer. -/
def nullInterfaceRequest : CreateInstanceRequest :=
  { Tags := ∅, RunInstancesInput := { emptyInput with NetworkInterfaces := [none] } }

/-- A spec with a logical ID that asks for two attachments. -/
def addressedTwoVolumeSpec : Spec :=
  { plainSpec with LogicalID := some "10.0.0.5", Attachments := ["10.0.0.5", "10.0.0.6"] }

/-- An instance whose tag list has a tag without value, a key written twice
and a tag without key. -/
def taggedInstance : Instance :=
  { InstanceId := some "i-7", PrivateIpAddress := none, State := none,
    Tags := [{ Key := some "env", Value := some "dev" }, { Key := some "tmp", Value := none },
             { Key := some "env", Value := some "prod" }, { Key := none, Value := some "x" }] }

/-- A stub that answers every describe-instances query with `taggedInstance`
on a single page. -/
def taggedStub : Stub :=
  { happyStub with
    describe := fun _ _ =>
      .ok { Reservations := [{ Instances := [taggedInstance] }], NextToken := none } }

/-- The create-instance request issued for an empty payload and a spec without
logical ID or script: only the counts are set. -/
def singleIssued : RunInstancesInput :=
  { emptyInput with MinCount := some 1, MaxCount := some 1 }

/-- The create-instance request issued for `addressedSpec` with an empty
payload: the logical ID at the top level. -/
def addressedIssued : RunInstancesInput :=
  { emptyInput with MinCount := some 1, MaxCount := some 1, PrivateIpAddress := some "10.0.0.5" }

/-- The create-instance request issued for `initSpec` with an empty payload. -/
def echoIssued : RunInstancesInput :=
  { emptyInput with MinCount := some 1, MaxCount := some 1, UserData := some "ZWNobyBoaQ==" }

/-! # Properties -/

/-! ## The string order and `sortStrings` -/

theorem lexLess_iff (a b : List Char) : lexLess a b = true ↔ a < b := by
  induction a generalizing b with
  | nil =>
    cases b with
    | nil => simp [lexLess]
    | cons y ys => simpa [lexLess] using (List.Lex.nil : List.Lex (· < ·) [] (y :: ys))
  | cons x xs ih =>
    cases b with
    | nil => simp [lexLess]
    | cons y ys =>
      simp only [lexLess, Bool.or_eq_true, Bool.and_eq_true, decide_eq_true_eq, ih]
      constructor
      · rintro (h | ⟨h, h2⟩)
        · exact List.Lex.rel h
        · subst h; exact List.Lex.cons h2
      · intro h
        cases h with
        | cons h2 => exact Or.inr ⟨rfl, h2⟩
        | rel h2 => exact Or.inl h2

theorem stringLess_iff (a b : String) : stringLess a b = true ↔ a < b := by
  rw [stringLess, lexLess_iff, String.lt_iff_toList_lt]

theorem insertSorted_perm (k : String) (l : List String) : (insertSorted k l).Perm (k :: l) := by
  induction l with
  | nil => simp [insertSorted]
  | cons x xs ih =>
    unfold insertSorted
    split
    · exact (List.Perm.cons x ih).trans (List.Perm.swap k x xs)
    · exact List.Perm.refl _

theorem sortStrings_perm (l : List String) : (sortStrings l).Perm l := by
  induction l with
  | nil => simp [sortStrings]
  | cons x xs ih => exact (insertSorted_perm x _).trans (List.Perm.cons x ih)

theorem insertSorted_sorted (k : String) (l : List String) (h : l.Pairwise (· ≤ ·)) :
    (insertSorted k l).Pairwise (· ≤ ·) := by
  induction l with
  | nil => simp [insertSorted]
  | cons x xs ih =>
    unfold insertSorted
    rw [List.pairwise_cons] at h
    split
    · rename_i hx
      rw [List.pairwise_cons]
      refine ⟨?_, ih h.2⟩
      intro y hy
      have hy2 := (insertSorted_perm k xs).mem_iff.1 hy
      rcases List.mem_cons.1 hy2 with hy3 | hy3
      · subst hy3; exact le_of_lt ((stringLess_iff x y).1 hx)
      · exact h.1 y hy3
    · rename_i hx
      have hkx : k ≤ x := by
        rw [← not_lt, ← stringLess_iff]; exact hx
      rw [List.pairwise_cons]
      refine ⟨?_, List.pairwise_cons.2 h⟩
      intro y hy
      rcases List.mem_cons.1 hy with hy3 | hy3
      · subst hy3; exact hkx
      · exact le_trans hkx (h.1 y hy3)

theorem sortStrings_sorted (l : List String) : (sortStrings l).Pairwise (· ≤ ·) := by
  induction l with
  | nil => simp [sortStrings]
  | cons x xs ih => exact insertSorted_sorted x _ ih

theorem sortStrings_strict (l : List String) (h : l.Nodup) :
    (sortStrings l).Pairwise (· < ·) := by
  have hnd : (sortStrings l).Nodup := (sortStrings_perm l).nodup_iff.2 h
  have hs := sortStrings_sorted l
  exact (hs.and hnd).imp (fun ⟨h1, h2⟩ => lt_of_le_of_ne h1 h2)

theorem sortStrings_eq_of_same_members (l1 l2 : List String) (h1 : l1.Nodup) (h2 : l2.Nodup)
    (h : ∀ k, k ∈ l1 ↔ k ∈ l2) : sortStrings l1 = sortStrings l2 := by
  have hp : l1.Perm l2 := (List.perm_ext_iff_of_nodup h1 h2).2 h
  have hp2 : (sortStrings l1).Perm (sortStrings l2) :=
    ((sortStrings_perm l1).trans hp).trans (sortStrings_perm l2).symm
  exact List.eq_of_perm_of_sorted hp2 (sortStrings_sorted l1) (sortStrings_sorted l2)

/-! ## The loops of `mergeTags` -/

theorem mergeEntry_lookup (st : List String × StringMap) (e : Sigma (fun _ : String => String))
    (k : String) :
    (mergeEntry st e).2.lookup k = if k = e.1 then some e.2 else st.2.lookup k := by
  unfold mergeEntry
  by_cases h : k = e.1
  · subst h; simp
  · simp [h, AList.lookup_insert_ne h]

theorem foldl_mergeEntry_lookup (l : List (Sigma (fun _ : String => String))) (hl : l.NodupKeys)
    (st : List String × StringMap) (k : String) :
    (l.foldl mergeEntry st).2.lookup k
      = match l.dlookup k with
        | some v => some v
        | none => st.2.lookup k := by
  induction l generalizing st with
  | nil => simp
  | cons e l ih =>
    obtain ⟨a, b⟩ := e
    rw [List.nodupKeys_cons] at hl
    rw [List.foldl_cons, ih hl.2, mergeEntry_lookup]
    by_cases h : k = a
    · subst h
      have hnone : List.dlookup k l = none := List.dlookup_eq_none.2 hl.1
      simp [hnone, List.dlookup_cons_eq]
    · have h2 : List.dlookup k (⟨a, b⟩ :: l) = List.dlookup k l :=
        List.dlookup_cons_ne l (⟨a, b⟩ : Sigma (fun _ : String => String)) h
      simp [h, h2]

theorem mergeMap_lookup (st : List String × StringMap) (m : StringMap) (k : String) :
    (mergeMap st m).2.lookup k
      = match m.lookup k with
        | some v => some v
        | none => st.2.lookup k :=
  foldl_mergeEntry_lookup m.entries m.nodupKeys st k

theorem mergeMap_lookup_of_mem (st : List String × StringMap) (m : StringMap) (k : String)
    (h : k ∈ m) : (mergeMap st m).2.lookup k = m.lookup k := by
  rw [mergeMap_lookup]
  have h2 := AList.lookup_isSome.2 h
  cases hv : m.lookup k with
  | none => simp [hv] at h2
  | some v => rfl

theorem mergeMap_lookup_of_not_mem (st : List String × StringMap) (m : StringMap) (k : String)
    (h : k ∉ m) : (mergeMap st m).2.lookup k = st.2.lookup k := by
  rw [mergeMap_lookup, AList.lookup_eq_none.2 h]

theorem mergeMap_mem (st : List String × StringMap) (m : StringMap) (k : String) :
    k ∈ (mergeMap st m).2 ↔ k ∈ st.2 ∨ k ∈ m := by
  by_cases h : k ∈ m
  · rw [← AList.lookup_isSome, mergeMap_lookup_of_mem st m k h, AList.lookup_isSome]
    simp [h]
  · rw [← AList.lookup_isSome, mergeMap_lookup_of_not_mem st m k h, AList.lookup_isSome]
    simp [h]

theorem foldl_mergeMap_mem (ms : List StringMap) (st : List String × StringMap) (k : String) :
    k ∈ (ms.foldl mergeMap st).2 ↔ k ∈ st.2 ∨ ∃ m ∈ ms, k ∈ m := by
  induction ms generalizing st with
  | nil => simp
  | cons m ms ih =>
    rw [List.foldl_cons, ih, mergeMap_mem]
    simp only [List.mem_cons, exists_eq_or_imp]
    tauto

theorem foldl_mergeMap_lookup_of_not_mem (ms : List StringMap) (st : List String × StringMap)
    (k : String) (h : ∀ m ∈ ms, k ∉ m) :
    (ms.foldl mergeMap st).2.lookup k = st.2.lookup k := by
  induction ms generalizing st with
  | nil => simp
  | cons m ms ih =>
    rw [List.foldl_cons, ih _ (fun m' hm' => h m' (List.mem_cons_of_mem _ hm')),
      mergeMap_lookup_of_not_mem st m k (h m (List.mem_cons_self _ _))]

/-- The invariant of the loops of `mergeTags`: `keys` lists the keys of `tags`,
each once. -/
theorem mergeEntry_keys (st : List String × StringMap) (e : Sigma (fun _ : String => String))
    (h : st.1.Nodup ∧ ∀ k, k ∈ st.1 ↔ k ∈ st.2) :
    (mergeEntry st e).1.Nodup ∧ ∀ k, k ∈ (mergeEntry st e).1 ↔ k ∈ (mergeEntry st e).2 := by
  unfold mergeEntry
  by_cases hk : e.1 ∈ st.2
  · have hs : (AList.lookup e.1 st.2).isSome = true := AList.lookup_isSome.2 hk
    rw [if_pos hs]
    refine ⟨h.1, fun k => ?_⟩
    rw [AList.mem_insert, h.2]
    constructor
    · intro hk2; exact Or.inr hk2
    · rintro (rfl | hk2)
      · exact hk
      · exact hk2
  · have hs : ¬ (AList.lookup e.1 st.2).isSome = true := fun h3 => hk (AList.lookup_isSome.1 h3)
    rw [if_neg hs]
    have hnot : e.1 ∉ st.1 := fun h3 => hk ((h.2 _).1 h3)
    refine ⟨?_, fun k => ?_⟩
    · exact List.Nodup.append h.1 (List.nodup_singleton _) (by simpa using hnot)
    · rw [AList.mem_insert, List.mem_append, List.mem_singleton, h.2]
      tauto

theorem foldl_mergeEntry_keys (l : List (Sigma (fun _ : String => String)))
    (st : List String × StringMap) (h : st.1.Nodup ∧ ∀ k, k ∈ st.1 ↔ k ∈ st.2) :
    (l.foldl mergeEntry st).1.Nodup
      ∧ ∀ k, k ∈ (l.foldl mergeEntry st).1 ↔ k ∈ (l.foldl mergeEntry st).2 := by
  induction l generalizing st with
  | nil => exact h
  | cons e l ih => exact ih _ (mergeEntry_keys st e h)

theorem foldl_mergeMap_keys (ms : List StringMap) (st : List String × StringMap)
    (h : st.1.Nodup ∧ ∀ k, k ∈ st.1 ↔ k ∈ st.2) :
    (ms.foldl mergeMap st).1.Nodup
      ∧ ∀ k, k ∈ (ms.foldl mergeMap st).1 ↔ k ∈ (ms.foldl mergeMap st).2 := by
  induction ms generalizing st with
  | nil => exact h
  | cons m ms ih => exact ih _ (foldl_mergeEntry_keys m.entries st h)

theorem mergeTags_keys_raw (ms : List StringMap) :
    (ms.foldl mergeMap (([] : List String), (∅ : StringMap))).1.Nodup
      ∧ ∀ k, k ∈ (ms.foldl mergeMap (([] : List String), (∅ : StringMap))).1
          ↔ ∃ m ∈ ms, k ∈ m := by
  have h := foldl_mergeMap_keys ms (([] : List String), (∅ : StringMap))
    ⟨List.nodup_nil, fun k => by simp⟩
  refine ⟨h.1, fun k => ?_⟩
  rw [h.2, foldl_mergeMap_mem]
  simp

theorem mergeTags_mem (ms : List StringMap) (k : String) :
    k ∈ (mergeTags ms).2 ↔ ∃ m ∈ ms, k ∈ m := by
  unfold mergeTags
  simp only
  rw [foldl_mergeMap_mem]
  simp

theorem mergeTags_lookup_last (before : List StringMap) (m : StringMap) (after : List StringMap)
    (k : String) (hm : k ∈ m) (hafter : ∀ m' ∈ after, k ∉ m') :
    (mergeTags (before ++ m :: after)).2.lookup k = m.lookup k := by
  unfold mergeTags
  simp only
  rw [List.foldl_append, List.foldl_cons, foldl_mergeMap_lookup_of_not_mem _ _ _ hafter,
    mergeMap_lookup_of_mem _ _ _ hm]

theorem same_keys_of_entries_perm (ms other : List StringMap)
    (h1 : List.Forall₂ (fun m m' => m.entries.Perm m'.entries) ms other) (k : String) :
    (∃ m ∈ other, k ∈ m) ↔ ∃ m ∈ ms, k ∈ m := by
  induction h1 with
  | nil => simp
  | cons hab _ ih =>
    rename_i a b l1 l2 _
    have hk : k ∈ a ↔ k ∈ b := by
      rw [AList.mem_keys, AList.mem_keys]
      exact (hab.map Sigma.fst).mem_iff
    simp only [List.mem_cons, exists_eq_or_imp, ih, hk]

theorem same_keys_of_reordered (ms other1 other2 : List StringMap)
    (h1 : List.Forall₂ (fun m m' => m.entries.Perm m'.entries) ms other1)
    (h2 : other1.Perm other2) (k : String) :
    (∃ m ∈ other2, k ∈ m) ↔ ∃ m ∈ ms, k ∈ m := by
  rw [← same_keys_of_entries_perm ms other1 h1 k]
  constructor
  · rintro ⟨m, hm, hk⟩; exact ⟨m, h2.mem_iff.2 hm, hk⟩
  · rintro ⟨m, hm, hk⟩; exact ⟨m, h2.mem_iff.1 hm, hk⟩

/-- C1: the map `mergeTags` returns contains a key exactly when some input map
contains it, and the value of a key is the one it has in the last input map, in
argument order, that contains it; so for three sources `A`, `B`, `C` the value
`C` gives a key wins. -/
theorem mergeTags_last_write_wins (tagMaps : List StringMap) (k : String) :
    (k ∈ (mergeTags tagMaps).2 ↔ ∃ m ∈ tagMaps, k ∈ m)
    ∧ (∀ (before : List StringMap) (m : StringMap) (after : List StringMap),
        tagMaps = before ++ m :: after → k ∈ m → (∀ m' ∈ after, k ∉ m') →
        (mergeTags tagMaps).2.lookup k = m.lookup k
          ∧ index (mergeTags tagMaps).2 k = index m k)
    ∧ (∀ (A B C : StringMap) (c : String), C.lookup k = some c →
        (mergeTags [A, B, C]).2.lookup k = some c) := by
  refine ⟨mergeTags_mem tagMaps k, ?_, ?_⟩
  · intro before m after hms hm hafter
    subst hms
    have h := mergeTags_lookup_last before m after k hm hafter
    exact ⟨h, by unfold index; rw [h]⟩
  · intro A B C c hc
    have hm : k ∈ C := AList.lookup_isSome.1 (by rw [hc]; rfl)
    have h := mergeTags_lookup_last [A, B] C [] k hm (by simp)
    simpa [hc] using h

/-- C2: the key slice `mergeTags` returns is strictly ascending in the string
order, has no duplicate, holds exactly the keys of the returned map, and is the
same slice whatever the order in which the maps and their entries are visited. -/
theorem mergeTags_keys_sorted (tagMaps : List StringMap) :
    (mergeTags tagMaps).1.Pairwise (fun a b => a < b ∧ stringLess a b = true)
    ∧ (mergeTags tagMaps).1.Nodup
    ∧ (∀ k, k ∈ (mergeTags tagMaps).1 ↔ k ∈ (mergeTags tagMaps).2)
    ∧ (∀ other1 other2 : List StringMap,
        List.Forall₂ (fun m m' => m.entries.Perm m'.entries) tagMaps other1 →
        other1.Perm other2 → (mergeTags other2).1 = (mergeTags tagMaps).1) := by
  have hraw := mergeTags_keys_raw tagMaps
  refine ⟨?_, ?_, ?_, ?_⟩
  · exact (sortStrings_strict _ hraw.1).imp (fun h => ⟨h, (stringLess_iff _ _).2 h⟩)
  · exact (sortStrings_perm _).nodup_iff.2 hraw.1
  · intro k
    rw [mergeTags_mem]
    unfold mergeTags
    simp only
    rw [(sortStrings_perm _).mem_iff, hraw.2]
  · intro other1 other2 h1 h2
    have hraw2 := mergeTags_keys_raw other2
    unfold mergeTags
    simp only
    apply sortStrings_eq_of_same_members _ _ hraw2.1 hraw.1
    intro k
    rw [hraw2.2, hraw.2]
    exact same_keys_of_reordered tagMaps other1 other2 h1 h2 k

/-! ## The loops of `describeInstances` -/

theorem addTag_lookup (m : StringMap) (tag : Tag) (k : String) :
    (addTag m tag).lookup k
      = if tag.Key = some k ∧ tag.Value.isSome = true then tag.Value else m.lookup k := by
  unfold addTag
  cases hk : tag.Key with
  | none => simp
  | some k2 =>
    cases hv : tag.Value with
    | none => simp
    | some v =>
      by_cases h : k = k2
      · subst h; simp
      · have h2 : ¬ k2 = k := fun h3 => h h3.symm
        simp [h2, AList.lookup_insert_ne h]

theorem foldl_addTag_lookup_unchanged (tags : List Tag) (m : StringMap) (k : String)
    (h : ∀ t ∈ tags, t.Key = some k → t.Value = none) :
    (tags.foldl addTag m).lookup k = m.lookup k := by
  induction tags generalizing m with
  | nil => rfl
  | cons t rest ih =>
    rw [List.foldl_cons, ih _ (fun t2 ht2 => h t2 (List.mem_cons_of_mem _ ht2)), addTag_lookup]
    have ht := h t (List.mem_cons_self _ _)
    by_cases hk : t.Key = some k
    · simp [ht hk]
    · simp [hk]

theorem foldl_addTag_mem (tags : List Tag) (m : StringMap) (k : String) :
    k ∈ tags.foldl addTag m
      ↔ k ∈ m ∨ ∃ tag ∈ tags, tag.Key = some k ∧ tag.Value.isSome = true := by
  induction tags generalizing m with
  | nil => simp
  | cons t rest ih =>
    have hstep : k ∈ addTag m t ↔ k ∈ m ∨ (t.Key = some k ∧ t.Value.isSome = true) := by
      rw [← AList.lookup_isSome, addTag_lookup]
      by_cases hc : t.Key = some k ∧ t.Value.isSome = true
      · rw [if_pos hc]
        simp [hc]
      · rw [if_neg hc, AList.lookup_isSome]
        simp [hc]
    rw [List.foldl_cons, ih, hstep]
    simp only [List.mem_cons, exists_eq_or_imp]
    tauto

theorem instanceTags_describes (i : Instance) (id : String) (hid : i.InstanceId = some id) :
    Describes { ID := id, LogicalID := i.PrivateIpAddress, Tags := instanceTags i.Tags } i := by
  refine ⟨hid.symm, rfl, ?_, ?_⟩
  · intro k
    show k ∈ instanceTags i.Tags ↔ _
    unfold instanceTags
    rw [foldl_addTag_mem]
    simp
  · intro k v before tag after htags hkey hval hafter
    show (instanceTags i.Tags).lookup k = some v
    unfold instanceTags
    rw [htags, List.foldl_append, List.foldl_cons,
      foldl_addTag_lookup_unchanged after _ k hafter, addTag_lookup]
    simp [hkey, hval]

theorem describes_of_map_eq (ds : List Description) (is : List Instance)
    (h : ds.map (fun d => (some d.ID, d.LogicalID, d.Tags))
      = is.map (fun i => (i.InstanceId, i.PrivateIpAddress, instanceTags i.Tags))) :
    List.Forall₂ Describes ds is := by
  induction ds generalizing is with
  | nil =>
    cases is with
    | nil => exact List.Forall₂.nil
    | cons i is => simp at h
  | cons d ds ih =>
    cases is with
    | nil => simp at h
    | cons i is =>
      simp only [List.map_cons, List.cons.injEq, Prod.mk.injEq] at h
      obtain ⟨⟨hid, hlog, htags⟩, hrest⟩ := h
      refine List.Forall₂.cons ?_ (ih is hrest)
      have hd := instanceTags_describes i d.ID hid.symm
      rw [← hlog, ← htags] at hd
      exact hd

theorem describeReservation_ok (l : List Instance) (acc : List Description)
    (h : ∀ i ∈ l, i.InstanceId.isSome = true) :
    ∃ ds, describeReservation l acc = .ret (acc ++ ds)
      ∧ ds.map (fun d => (some d.ID, d.LogicalID, d.Tags))
          = l.map (fun i => (i.InstanceId, i.PrivateIpAddress, instanceTags i.Tags)) := by
  induction l generalizing acc with
  | nil => exact ⟨[], by simp [describeReservation], rfl⟩
  | cons i l ih =>
    have hi := h i (List.mem_cons_self _ _)
    cases hid : i.InstanceId with
    | none => rw [hid] at hi; cases hi
    | some id =>
      obtain ⟨ds, hds, hmap⟩ := ih
        (acc ++ [{ ID := id, LogicalID := i.PrivateIpAddress, Tags := instanceTags i.Tags }])
        (fun j hj => h j (List.mem_cons_of_mem _ hj))
      refine ⟨{ ID := id, LogicalID := i.PrivateIpAddress, Tags := instanceTags i.Tags } :: ds,
        ?_, ?_⟩
      · simp only [describeReservation, hid]
        rw [hds, List.append_assoc]
        rfl
      · simp [hmap, hid]

theorem describeReservations_ok (rs : List Reservation) (acc : List Description)
    (h : ∀ i ∈ rs.flatMap (fun r => r.Instances), i.InstanceId.isSome = true) :
    ∃ ds, describeReservations rs acc = .ret (acc ++ ds)
      ∧ ds.map (fun d => (some d.ID, d.LogicalID, d.Tags))
          = (rs.flatMap (fun r => r.Instances)).map
              (fun i => (i.InstanceId, i.PrivateIpAddress, instanceTags i.Tags)) := by
  induction rs generalizing acc with
  | nil => exact ⟨[], by simp [describeReservations], rfl⟩
  | cons r rs ih =>
    obtain ⟨ds1, h1, hm1⟩ := describeReservation_ok r.Instances acc
      (fun i hi => h i (by simp [List.flatMap_cons]; exact Or.inl hi))
    obtain ⟨ds2, h2, hm2⟩ := ih (acc ++ ds1)
      (fun i hi => h i (by rw [List.flatMap_cons, List.mem_append]; exact Or.inr hi))
    refine ⟨ds1 ++ ds2, ?_, ?_⟩
    · simp only [describeReservations, h1, h2, List.append_assoc]
    · simp [hm1, hm2, List.flatMap_cons]

theorem describeInstances_pages {σ : Type} (p : awsInstancePlugin σ) (tags : StringMap)
    (pages : List DescribeInstancesOutput) :
    ∀ (fuel : Nat) (token : Option String) (w : World σ),
      servesPages p tags token w.st pages →
      (∀ page ∈ pages, ∀ i ∈ pageInstances page, i.InstanceId.isSome = true) →
      pages.length ≤ fuel →
      ∃ (ds : List Description) (s' : σ),
        describeInstances p tags fuel token w
          = (.ret (.ok ds),
              { st := s', log := w.log ++ pageQueries p.namespaceTags tags token pages })
        ∧ ds.map (fun d => (some d.ID, d.LogicalID, d.Tags))
            = (pages.flatMap pageInstances).map
                (fun i => (i.InstanceId, i.PrivateIpAddress, instanceTags i.Tags)) := by
  induction pages with
  | nil => intro fuel token w h; exact absurd h (by simp [servesPages])
  | cons page rest ih =>
    intro fuel token w hserve hids hfuel
    cases fuel with
    | zero => simp at hfuel
    | succ fuel =>
      obtain ⟨ds1, hds1, hm1⟩ := describeReservations_ok page.Reservations []
        (hids page (List.mem_cons_self _ _))
      rw [List.nil_append] at hds1
      cases rest with
      | nil =>
        simp only [servesPages] at hserve
        refine ⟨ds1, (p.client.DescribeInstances
          (describeGroupRequest p.namespaceTags tags token) w.st).2, ?_, ?_⟩
        · simp only [describeInstances, hserve.1, hds1, hserve.2, pageQueries]
        · simpa [pageInstances] using hm1
      | cons next more =>
        simp only [servesPages] at hserve
        obtain ⟨hpage, htok, hrest⟩ := hserve
        cases hnt : page.NextToken with
        | none => rw [hnt] at htok; cases htok
        | some tok =>
          rw [hnt] at hrest
          obtain ⟨ds2, s2, hrun, hm2⟩ := ih fuel (some tok)
            { st := (p.client.DescribeInstances
                (describeGroupRequest p.namespaceTags tags token) w.st).2,
              log := w.log ++ [Event.describeInstances
                (describeGroupRequest p.namespaceTags tags token)] }
            hrest (fun pg hpg => hids pg (List.mem_cons_of_mem _ hpg))
            (by simpa using hfuel)
          refine ⟨ds1 ++ ds2, s2, ?_, ?_⟩
          · simp only [describeInstances, hpage, hds1, hnt, hrun]
            simp [pageQueries, hnt]
          · rw [List.map_append, hm1, hm2]
            simp [List.flatMap_cons, pageInstances]

theorem pageQueries_length (namespaceTags tags : StringMap) (pages : List DescribeInstancesOutput) :
    ∀ token, (pageQueries namespaceTags tags token pages).length = pages.length := by
  induction pages with
  | nil => intro token; rfl
  | cons page rest ih => intro token; simp [pageQueries, ih]

/-- C3: when the provider answers the token-less query with the first page and
the query carrying each page's continuation token with the next page, the chain
of `n` pages ending at the only page without a token, then `DescribeInstances`
(with fuel for `n` levels of recursion or more) returns without error after
exactly `n` provider queries, and its result lists, in page order, one
description per instance: ID the instance id, LogicalID the private address,
Tags the instance's tags (`Describes`: the keys of the tags that have a key and
a value, each with the value written last); so its length is the number of
instances on all pages.  The instance id the claim speaks of is the
`InstanceId` every instance record of the pages carries (`hids`): the ID of a
description is a string, not a pointer, and line 274 dereferences the
pointer. -/
theorem DescribeInstances_pagination {σ : Type} (p : awsInstancePlugin σ) (tags : StringMap)
    (s : σ) (pages : List DescribeInstancesOutput) (fuel : Nat)
    (hserve : servesPages p tags none s pages)
    (hids : ∀ page ∈ pages, ∀ i ∈ pageInstances page, i.InstanceId.isSome = true)
    (hfuel : pages.length ≤ fuel) :
    ∃ (descriptions : List Description) (w' : World σ),
      DescribeInstances p fuel tags { st := s, log := [] } = (.ret (.ok descriptions), w')
      ∧ w'.log = pageQueries p.namespaceTags tags none pages
      ∧ w'.log.length = pages.length
      ∧ List.Forall₂ Describes descriptions (pages.flatMap pageInstances)
      ∧ descriptions.map (fun d => (some d.ID, d.LogicalID, d.Tags))
          = (pages.flatMap pageInstances).map
              (fun i => (i.InstanceId, i.PrivateIpAddress, instanceTags i.Tags))
      ∧ descriptions.length = (pages.map (fun page => (pageInstances page).length)).sum := by
  obtain ⟨ds, s', hrun, hmap⟩ :=
    describeInstances_pages p tags pages fuel none { st := s, log := [] } hserve hids hfuel
  refine ⟨ds, _, hrun, by simp, by simp [pageQueries_length],
    describes_of_map_eq ds _ hmap, hmap, ?_⟩
  have hlen := congrArg List.length hmap
  simp only [List.length_map] at hlen
  rw [hlen, List.length_flatMap]
  rfl

/-! ## The phases of `Provision` -/

theorem setLogicalID_counts (logicalID : Option String) (input out : RunInstancesInput)
    (h : setLogicalID logicalID input = .ret out) :
    out.MinCount = input.MinCount ∧ out.MaxCount = input.MaxCount
      ∧ out.UserData = input.UserData := by
  unfold setLogicalID at h
  cases logicalID with
  | none => cases h; exact ⟨rfl, rfl, rfl⟩
  | some addr =>
    dsimp only at h
    split at h
    · cases h; exact ⟨rfl, rfl, rfl⟩
    · cases h
    · cases h; exact ⟨rfl, rfl, rfl⟩

theorem provisionInput_ret (spec : Spec) (request : CreateInstanceRequest)
    (input : RunInstancesInput) (h : provisionInput spec request = .ret input) :
    ∃ routed, setLogicalID spec.LogicalID
        { request.RunInstancesInput with MinCount := some 1, MaxCount := some 1 } = .ret routed
      ∧ input = setUserData spec.Init routed := by
  unfold provisionInput at h
  cases hr : setLogicalID spec.LogicalID
      { request.RunInstancesInput with MinCount := some 1, MaxCount := some 1 } with
  | ret routed =>
    rw [hr] at h
    cases h
    exact ⟨routed, rfl, rfl⟩
  | fault reason => rw [hr] at h; cases h
  | unfinished => rw [hr] at h; cases h

theorem setUserData_rest (init : String) (input : RunInstancesInput) :
    (setUserData init input).MinCount = input.MinCount
      ∧ (setUserData init input).MaxCount = input.MaxCount
      ∧ (setUserData init input).NetworkInterfaces = input.NetworkInterfaces
      ∧ (setUserData init input).PrivateIpAddress = input.PrivateIpAddress := by
  unfold setUserData
  dsimp only
  split <;> split <;> exact ⟨rfl, rfl, rfl, rfl⟩

theorem setUserData_userData (init : String) (input : RunInstancesInput) :
    (setUserData init input).UserData
      = if init ≠ "" then some (base64Encode init) else input.UserData.map base64Encode := by
  unfold setUserData
  dsimp only
  by_cases hinit : init = ""
  · rw [if_neg (by simpa using hinit), if_neg (by simpa using hinit)]
    cases h : input.UserData with
    | none => simp [h]
    | some data => rfl
  · rw [if_pos hinit, if_pos hinit]

theorem resolveVolumes_log {σ : Type} (p : awsInstancePlugin σ) (spec : Spec) (w : World σ) :
    (resolveVolumes p spec w).2.log = w.log
      ∨ (resolveVolumes p spec w).2.log = w.log ++ [Event.describeVolumes (volumesInput spec)] := by
  unfold resolveVolumes
  dsimp only
  split
  · right
    split
    · rfl
    · split <;> rfl
  · left; rfl

theorem tagInstance_log {σ : Type} (p : awsInstancePlugin σ) (inst : Instance)
    (systemTags userTags : StringMap) (w : World σ) :
    (tagInstance p inst systemTags userTags w).2.log
      = w.log ++ [Event.createTags (tagInstanceInput p.namespaceTags inst systemTags userTags)] :=
  rfl

theorem waitRunning_log {σ : Type} (p : awsInstancePlugin σ) (instanceId : Option String)
    (fuel : Nat) :
    ∀ w : World σ, ∃ evs, (waitRunning p instanceId fuel w).2.log = w.log ++ evs
      ∧ ∀ e ∈ evs, e = Event.sleep 10 ∨ e = Event.describeInstances (pollInput instanceId) := by
  induction fuel with
  | zero => intro w; exact ⟨[], by simp [waitRunning], by simp⟩
  | succ fuel ih =>
    intro w
    obtain ⟨evs, hlog, hevs⟩ := ih
      { st := (p.client.DescribeInstances (pollInput instanceId) w.st).2,
        log := w.log ++ [Event.sleep 10, Event.describeInstances (pollInput instanceId)] }
    have hstop : ∃ evs,
        w.log ++ [Event.sleep 10, Event.describeInstances (pollInput instanceId)] = w.log ++ evs
          ∧ ∀ e ∈ evs, e = Event.sleep 10
              ∨ e = Event.describeInstances (pollInput instanceId) :=
      ⟨[Event.sleep 10, Event.describeInstances (pollInput instanceId)], rfl, by simp⟩
    have hgo : ∃ evs, (waitRunning p instanceId fuel
          { st := (p.client.DescribeInstances (pollInput instanceId) w.st).2,
            log := w.log ++ [Event.sleep 10, Event.describeInstances (pollInput instanceId)] }
          ).2.log = w.log ++ evs
          ∧ ∀ e ∈ evs, e = Event.sleep 10
              ∨ e = Event.describeInstances (pollInput instanceId) := by
      refine ⟨[Event.sleep 10, Event.describeInstances (pollInput instanceId)] ++ evs, ?_, ?_⟩
      · rw [hlog, List.append_assoc]
      · intro e he
        rcases List.mem_append.1 he with h | h
        · simpa using h
        · exact hevs e h
    unfold waitRunning
    dsimp only
    split
    · split
      · exact hstop
      · split
        · exact hstop
        · split
          · exact hstop
          · split
            · exact hstop
            · split
              · exact hstop
              · exact hgo
    · split
      · split
        · exact hstop
        · exact hgo
      · exact hgo

theorem attachVolumes_log {σ : Type} (p : awsInstancePlugin σ) (instanceId : Option String)
    (volumes : List (Option String)) :
    ∀ w : World σ, ∃ evs, (attachVolumes p instanceId volumes w).2.log = w.log ++ evs
      ∧ ∀ e ∈ evs, ∃ v, e = Event.attachVolume (attachInput instanceId v) := by
  induction volumes with
  | nil => intro w; exact ⟨[], by simp [attachVolumes], by simp⟩
  | cons v rest ih =>
    intro w
    unfold attachVolumes
    dsimp only
    split
    · exact ⟨[Event.attachVolume (attachInput instanceId v)], rfl, by simp⟩
    · obtain ⟨evs, hlog, hevs⟩ := ih
        { st := (p.client.AttachVolume (attachInput instanceId v) w.st).2,
          log := w.log ++ [Event.attachVolume (attachInput instanceId v)] }
      refine ⟨[Event.attachVolume (attachInput instanceId v)] ++ evs, ?_, ?_⟩
      · rw [hlog, List.append_assoc]
      · intro e he
        rcases List.mem_append.1 he with h | h
        · exact ⟨v, by simpa using h⟩
        · exact hevs e h

/-! ## The create-instance requests `Provision` issues -/

theorem runs_append (input : RunInstancesInput) (l evs : List Event)
    (hl : ∀ j, Event.runInstances j ∈ l → j = input)
    (hevs : ∀ j, Event.runInstances j ∈ evs → j = input) :
    ∀ j, Event.runInstances j ∈ l ++ evs → j = input := by
  intro j hj
  rcases List.mem_append.1 hj with h | h
  · exact hl j h
  · exact hevs j h

theorem runs_resolveVolumes {σ : Type} (p : awsInstancePlugin σ) (spec : Spec) (w : World σ)
    (input : RunInstancesInput) (hw : ∀ j, Event.runInstances j ∈ w.log → j = input) :
    ∀ j, Event.runInstances j ∈ (resolveVolumes p spec w).2.log → j = input := by
  rcases resolveVolumes_log p spec w with h | h
  · rw [h]; exact hw
  · rw [h]; exact runs_append input _ _ hw (by simp)

theorem runs_tagInstance {σ : Type} (p : awsInstancePlugin σ) (inst : Instance)
    (systemTags userTags : StringMap) (w : World σ)
    (input : RunInstancesInput) (hw : ∀ j, Event.runInstances j ∈ w.log → j = input) :
    ∀ j, Event.runInstances j ∈ (tagInstance p inst systemTags userTags w).2.log → j = input := by
  rw [tagInstance_log]
  exact runs_append input _ _ hw (by simp)

theorem runs_waitRunning {σ : Type} (p : awsInstancePlugin σ) (instanceId : Option String)
    (fuel : Nat) (w : World σ)
    (input : RunInstancesInput) (hw : ∀ j, Event.runInstances j ∈ w.log → j = input) :
    ∀ j, Event.runInstances j ∈ (waitRunning p instanceId fuel w).2.log → j = input := by
  obtain ⟨evs, hlog, hevs⟩ := waitRunning_log p instanceId fuel w
  rw [hlog]
  refine runs_append input _ _ hw ?_
  intro j hj
  rcases hevs _ hj with h | h <;> cases h

theorem runs_attachVolumes {σ : Type} (p : awsInstancePlugin σ) (instanceId : Option String)
    (volumes : List (Option String)) (w : World σ)
    (input : RunInstancesInput) (hw : ∀ j, Event.runInstances j ∈ w.log → j = input) :
    ∀ j, Event.runInstances j ∈ (attachVolumes p instanceId volumes w).2.log → j = input := by
  obtain ⟨evs, hlog, hevs⟩ := attachVolumes_log p instanceId volumes w
  rw [hlog]
  refine runs_append input _ _ hw ?_
  intro j hj
  obtain ⟨v, hv⟩ := hevs _ hj
  cases hv

theorem Provision_issued {σ : Type} (p : awsInstancePlugin σ)
    (unmarshal : String → Except GoError CreateInstanceRequest) (fuel : Nat) (spec : Spec)
    (s : σ) (i : RunInstancesInput)
    (h : Event.runInstances i ∈ (Provision p unmarshal fuel spec { st := s, log := [] }).2.log) :
    ∃ raw request, spec.Properties = some raw ∧ unmarshal raw = .ok request
      ∧ provisionInput spec request = .ret i := by
  cases hprops : spec.Properties with
  | none => simp [Provision, hprops] at h
  | some raw =>
    cases hparse : unmarshal raw with
    | error err => simp [Provision, hprops, hparse] at h
    | ok request =>
      cases hin : provisionInput spec request with
      | fault reason => simp [Provision, hprops, hparse, hin] at h
      | unfinished => simp [Provision, hprops, hparse, hin] at h
      | ret input =>
      refine ⟨raw, request, rfl, hparse, ?_⟩
      suffices hi : i = input by rw [hi]; exact hin
      revert h
      have h1 := runs_resolveVolumes p spec { st := s, log := [] } input (by simp)
      simp only [Provision, hprops, hparse, hin]
      rcases hrv : resolveVolumes p spec { st := s, log := [] } with ⟨res, w1⟩
      rw [hrv] at h1
      have h2 : ∀ j, Event.runInstances j ∈ w1.log ++ [Event.runInstances input] → j = input :=
        runs_append input _ _ h1 (by simp)
      cases res with
      | error err => exact h1 i
      | ok awsVolumeIDs =>
        dsimp only
        cases hrun : (p.client.RunInstances input w1.st).1 with
        | error err => exact h2 i
        | ok reservation =>
          cases reservation with
          | none => exact h2 i
          | some reservation =>
            dsimp only
            rcases hinst : reservation.Instances with _ | ⟨ec2Instance, _ | ⟨second, more⟩⟩
            · exact h2 i
            · dsimp only
              have h3 := runs_tagInstance p ec2Instance spec.Tags request.Tags
                { st := (p.client.RunInstances input w1.st).2,
                  log := w1.log ++ [Event.runInstances input] } input h2
              rcases htag : tagInstance p ec2Instance spec.Tags request.Tags
                { st := (p.client.RunInstances input w1.st).2,
                  log := w1.log ++ [Event.runInstances input] } with ⟨terr, w3⟩
              rw [htag] at h3
              cases terr with
              | some err => exact h3 i
              | none =>
                dsimp only
                split
                · cases hid : ec2Instance.InstanceId with
                  | none => exact h3 i
                  | some id =>
                    dsimp only
                    have h4 := runs_waitRunning p (some id) fuel w3 input h3
                    rcases hwait : waitRunning p (some id) fuel w3 with ⟨wres, w4⟩
                    rw [hwait] at h4
                    cases wres with
                    | ret b =>
                      cases b with
                      | false => exact h4 i
                      | true =>
                        dsimp only
                        have h5 := runs_attachVolumes p (some id) awsVolumeIDs w4 input h4
                        rcases hatt : attachVolumes p (some id) awsVolumeIDs w4 with ⟨aerr, w5⟩
                        rw [hatt] at h5
                        cases aerr with
                        | some err => exact h5 i
                        | none => exact h5 i
                    | fault reason => exact h4 i
                    | unfinished => exact h4 i
                · exact h3 i
            · exact h2 i

/-! ## The claims about `Provision` and `Destroy` -/

/-- The volume count check where `Provision` reaches it: for a spec whose
payload parses, whose request is prepared without a panic and whose attachment
list is not empty, when the describe-volumes call succeeds with a number of
volumes other than the number of attachments, `Provision` returns a nil
instance ID with a non-nil error, and the describe-volumes call is the only
call it issues. -/
theorem Provision_volume_mismatch_of_prepared {σ : Type} (p : awsInstancePlugin σ)
    (unmarshal : String → Except GoError CreateInstanceRequest) (fuel : Nat) (spec : Spec)
    (s : σ) (raw : String) (request : CreateInstanceRequest) (input : RunInstancesInput)
    (volumes : DescribeVolumesOutput)
    (hprops : spec.Properties = some raw) (hparse : unmarshal raw = .ok request)
    (hinput : provisionInput spec request = .ret input)
    (hatt : spec.Attachments ≠ [])
    (hvol : (p.client.DescribeVolumes (volumesInput spec) s).1 = .ok volumes)
    (hcount : volumes.Volumes.length ≠ spec.Attachments.length) :
    (Provision p unmarshal fuel spec { st := s, log := [] }).1
        = .ret (none, some (volumeMismatch spec volumes))
    ∧ (Provision p unmarshal fuel spec { st := s, log := [] }).2.log
        = [Event.describeVolumes (volumesInput spec)]
    ∧ ∀ e ∈ (Provision p unmarshal fuel spec { st := s, log := [] }).2.log,
        (∀ i, e ≠ Event.runInstances i) ∧ (∀ i, e ≠ Event.createTags i)
          ∧ (∀ i, e ≠ Event.attachVolume i) := by
  have hlen : spec.Attachments.length > 0 := List.length_pos.2 hatt
  have hrv : resolveVolumes p spec { st := s, log := [] }
      = (.error (volumeMismatch spec volumes),
          { st := (p.client.DescribeVolumes (volumesInput spec) s).2,
            log := [Event.describeVolumes (volumesInput spec)] }) := by
    unfold resolveVolumes
    dsimp only
    rw [if_pos hlen, hvol]
    dsimp only
    rw [if_neg hcount]
    rfl
  have hrun : Provision p unmarshal fuel spec { st := s, log := [] }
      = (.ret (none, some (volumeMismatch spec volumes)),
          { st := (p.client.DescribeVolumes (volumesInput spec) s).2,
            log := [Event.describeVolumes (volumesInput spec)] }) := by
    simp only [Provision, hprops, hparse, hinput, hrv]
  rw [hrun]
  refine ⟨rfl, rfl, ?_⟩
  intro e he
  rw [List.mem_singleton] at he
  subst he
  exact ⟨fun _ h => (by cases h), fun _ h => (by cases h), fun _ h => (by cases h)⟩

/-- C5: when the volumes resolve, the create-instance call (of the request
`input` that `Provision` has prepared) succeeds with exactly one instance,
which carries the identifier `id`, and the create-tags call that follows fails
with the error `e`, `Provision` returns the instance ID `id` together with `e`;
the create-tags call is the last thing it does, so there is no
wait-for-running poll (no sleep, no describe-instances call) and no
attach-volume call. -/
theorem Provision_tag_failure {σ : Type} (p : awsInstancePlugin σ)
    (unmarshal : String → Except GoError CreateInstanceRequest) (fuel : Nat) (spec : Spec)
    (s : σ) (raw : String) (request : CreateInstanceRequest) (input : RunInstancesInput)
    (awsVolumeIDs : List (Option String)) (w1 : World σ) (inst : Instance) (id : String)
    (e : GoError)
    (hprops : spec.Properties = some raw) (hparse : unmarshal raw = .ok request)
    (hinput : provisionInput spec request = .ret input)
    (hvols : resolveVolumes p spec { st := s, log := [] } = (.ok awsVolumeIDs, w1))
    (hrun : (p.client.RunInstances input w1.st).1
      = .ok (some { Instances := [inst] }))
    (hid : inst.InstanceId = some id)
    (htag : (p.client.CreateTags
        (tagInstanceInput p.namespaceTags inst spec.Tags request.Tags)
        (p.client.RunInstances input w1.st).2).1 = some e) :
    (Provision p unmarshal fuel spec { st := s, log := [] }).1 = .ret (some id, some e)
    ∧ (Provision p unmarshal fuel spec { st := s, log := [] }).2.log
        = w1.log ++ [Event.runInstances input,
            Event.createTags (tagInstanceInput p.namespaceTags inst spec.Tags request.Tags)]
    ∧ ∀ ev ∈ (Provision p unmarshal fuel spec { st := s, log := [] }).2.log,
        (∀ i, ev ≠ Event.describeInstances i) ∧ (∀ i, ev ≠ Event.attachVolume i)
          ∧ (∀ n, ev ≠ Event.sleep n) := by
  have hrunP : Provision p unmarshal fuel spec { st := s, log := [] }
      = (.ret (some id, some e),
          { st := (p.client.CreateTags
              (tagInstanceInput p.namespaceTags inst spec.Tags request.Tags)
              (p.client.RunInstances input w1.st).2).2,
            log := w1.log ++ [Event.runInstances input]
              ++ [Event.createTags
                    (tagInstanceInput p.namespaceTags inst spec.Tags request.Tags)] }) := by
    simp only [Provision, hprops, hparse, hinput, hvols, hrun, tagInstance, htag, hid]
  have hw1 := resolveVolumes_log p spec { st := s, log := [] }
  rw [hvols] at hw1
  dsimp only at hw1
  rw [hrunP]
  refine ⟨rfl, by simp, ?_⟩
  intro ev hev
  have hcases : ev = Event.describeVolumes (volumesInput spec)
      ∨ ev = Event.runInstances input
      ∨ ev = Event.createTags
          (tagInstanceInput p.namespaceTags inst spec.Tags request.Tags) := by
    rcases hw1 with h | h
    · simp only [h] at hev
      simp at hev
      tauto
    · simp only [h] at hev
      simp at hev
      tauto
  rcases hcases with h | h | h <;> subst h <;>
    exact ⟨fun _ h => (by cases h), fun _ h => (by cases h), fun _ h => (by cases h)⟩

/-- C6: whatever the payload and whatever the provider does, every
create-instance request `Provision` passes to the provider has
`MinCount = 1` and `MaxCount = 1`. -/
theorem Provision_single_instance {σ : Type} (p : awsInstancePlugin σ)
    (unmarshal : String → Except GoError CreateInstanceRequest) (fuel : Nat) (spec : Spec)
    (s : σ) (i : RunInstancesInput)
    (h : Event.runInstances i ∈ (Provision p unmarshal fuel spec { st := s, log := [] }).2.log) :
    i.MinCount = some 1 ∧ i.MaxCount = some 1 := by
  obtain ⟨raw, request, _, _, hi⟩ := Provision_issued p unmarshal fuel spec s i h
  obtain ⟨routed, hrouted, hset⟩ := provisionInput_ret spec request i hi
  subst hset
  have h1 := setUserData_rest spec.Init routed
  have h2 := setLogicalID_counts spec.LogicalID _ routed hrouted
  exact ⟨h1.1.trans h2.1, h1.2.1.trans h2.2.1⟩

/-- C7, as the code has it: for a spec with a logical ID, every create-instance
request `Provision` issues has the logical ID written into exactly one field
of the parsed request.  With no declared network interface that is the
top-level private address, and the issued request has no interface.  With one
or more, the first of them an interface record, it is the private address of
that first interface, and the top-level private address and the other
interfaces are issued as the payload gave them. -/
theorem Provision_logicalID_routing {σ : Type} (p : awsInstancePlugin σ)
    (unmarshal : String → Except GoError CreateInstanceRequest) (fuel : Nat) (spec : Spec)
    (s : σ) (i : RunInstancesInput) (raw : String) (request : CreateInstanceRequest)
    (addr : String)
    (h : Event.runInstances i ∈ (Provision p unmarshal fuel spec { st := s, log := [] }).2.log)
    (hprops : spec.Properties = some raw) (hparse : unmarshal raw = .ok request)
    (hid : spec.LogicalID = some addr) :
    (request.RunInstancesInput.NetworkInterfaces = [] →
        i.PrivateIpAddress = some addr ∧ i.NetworkInterfaces = [])
    ∧ (∀ first rest, request.RunInstancesInput.NetworkInterfaces = some first :: rest →
        i.NetworkInterfaces = some { first with PrivateIpAddress := some addr } :: rest
          ∧ i.PrivateIpAddress = request.RunInstancesInput.PrivateIpAddress) := by
  obtain ⟨raw2, request2, hp2, hu2, hi⟩ := Provision_issued p unmarshal fuel spec s i h
  rw [hprops] at hp2
  cases hp2
  rw [hparse] at hu2
  cases hu2
  obtain ⟨routed, hrouted, hset⟩ := provisionInput_ret spec request i hi
  subst hset
  have h1 := setUserData_rest spec.Init routed
  rw [h1.2.2.1, h1.2.2.2]
  rw [hid] at hrouted
  constructor
  · intro hnil
    simp only [setLogicalID, hnil] at hrouted
    cases hrouted
    exact ⟨rfl, rfl⟩
  · intro first rest hcons
    simp only [setLogicalID, hcons] at hrouted
    cases hrouted
    exact ⟨rfl, rfl⟩

/-- C8, as the code has it: the user data of every create-instance request
`Provision` issues is the base64 encoding, applied once, of the spec's
initialization script when that script is not empty; when the spec has no
script it is the base64 encoding of the user data the payload carries, and
unset only when the payload carries none. -/
theorem Provision_user_data {σ : Type} (p : awsInstancePlugin σ)
    (unmarshal : String → Except GoError CreateInstanceRequest) (fuel : Nat) (spec : Spec)
    (s : σ) (i : RunInstancesInput) (raw : String) (request : CreateInstanceRequest)
    (h : Event.runInstances i ∈ (Provision p unmarshal fuel spec { st := s, log := [] }).2.log)
    (hprops : spec.Properties = some raw) (hparse : unmarshal raw = .ok request) :
    (spec.Init ≠ "" → i.UserData = some (base64Encode spec.Init))
    ∧ (spec.Init = "" → i.UserData = request.RunInstancesInput.UserData.map base64Encode)
    ∧ (spec.Init = "" → request.RunInstancesInput.UserData = none → i.UserData = none) := by
  obtain ⟨raw2, request2, hp2, hu2, hi⟩ := Provision_issued p unmarshal fuel spec s i h
  rw [hprops] at hp2
  cases hp2
  rw [hparse] at hu2
  cases hu2
  obtain ⟨routed, hrouted, hset⟩ := provisionInput_ret spec request i hi
  subst hset
  have h2 := setLogicalID_counts spec.LogicalID _ routed hrouted
  have hud : (setUserData spec.Init routed).UserData
      = if spec.Init ≠ "" then some (base64Encode spec.Init)
        else request.RunInstancesInput.UserData.map base64Encode := by
    rw [setUserData_userData, h2.2.2]
  refine ⟨fun hne => ?_, fun he => ?_, fun he hnone => ?_⟩
  · rw [hud, if_pos hne]
  · rw [hud, if_neg (by simpa using he)]
  · rw [hud, if_neg (by simpa using he), hnone]
    rfl

/-- C9: `Destroy` issues one terminate call, for exactly the given ID; it
returns nil exactly when that call succeeds and reports one terminating
instance, a non-nil error when the call succeeds and reports any other number,
and the provider's own error when the call fails. -/
theorem Destroy_cardinality {σ : Type} (p : awsInstancePlugin σ) (id : String) (s : σ) :
    (Destroy p id { st := s, log := [] }).2.log
        = [Event.terminateInstances { InstanceIds := [some id] }]
    ∧ ((Destroy p id { st := s, log := [] }).1 = none ↔
        ∃ result, (p.client.TerminateInstances { InstanceIds := [some id] } s).1 = .ok result
          ∧ result.TerminatingInstances.length = 1)
    ∧ (∀ result, (p.client.TerminateInstances { InstanceIds := [some id] } s).1 = .ok result →
        result.TerminatingInstances.length ≠ 1 →
        (Destroy p id { st := s, log := [] }).1 = some (errorsNew "No matching instance"))
    ∧ (∀ err, (p.client.TerminateInstances { InstanceIds := [some id] } s).1 = .error err →
        (Destroy p id { st := s, log := [] }).1 = some err) := by
  unfold Destroy
  dsimp only
  cases hr : (p.client.TerminateInstances { InstanceIds := [some id] } s).1 with
  | error err =>
    refine ⟨rfl, ?_, ?_, ?_⟩
    · simp
    · intro result h; cases h
    · intro err2 h; cases h; rfl
  | ok result =>
    by_cases hlen : result.TerminatingInstances.length = 1
    · refine ⟨by simp [hlen], ?_, ?_, ?_⟩
      · simp [hlen]
      · intro result2 h hne; cases h; exact absurd hlen hne
      · intro err h; cases h
    · refine ⟨by simp [hlen], ?_, ?_, ?_⟩
      · simp [hlen]
      · intro result2 h hne; cases h; simp [hlen]
      · intro err h; cases h

/-! ## The claims at concrete inputs -/

/-- Three sources sharing the key `k` with the values `a`, `b`, `c`: the merged
value is `c`. -/
theorem mergeTags_last_write_wins_witness :
    (mergeTags [tagsA, tagsB, tagsC]).2.lookup "k" = some "c" :=
  (mergeTags_last_write_wins [tagsA, tagsB, tagsC] "k").2.2 tagsA tagsB tagsC "c" (by decide)

/-- The sources in the opposite order, the first with its entries in the other
order, give the same key slice, `b`, `k`, `z`. -/
theorem mergeTags_keys_sorted_witness :
    (mergeTags [tagsC, tagsB, tagsA2]).1 = (mergeTags [tagsA, tagsB, tagsC]).1
      ∧ (mergeTags [tagsA, tagsB, tagsC]).1 = ["b", "k", "z"] :=
  ⟨(mergeTags_keys_sorted [tagsA, tagsB, tagsC]).2.2.2 [tagsA2, tagsB, tagsC]
      [tagsC, tagsB, tagsA2]
      (List.Forall₂.cons (List.Perm.swap _ _ _)
        (List.Forall₂.cons (List.Perm.refl _)
          (List.Forall₂.cons (List.Perm.refl _) List.Forall₂.nil)))
      (List.reverse_perm [tagsC, tagsB, tagsA2]),
    by decide⟩

/-- Three pages of two instances: three queries, six descriptions.  And an
instance whose tag list writes `env` twice and has a tag without value and a
tag without key: the description's tags are `env` with the value written
last. -/
theorem DescribeInstances_pagination_witness :
    (∃ (descriptions : List Description) (w' : World Nat),
      DescribeInstances pagedStub.plugin 3 ∅ { st := 0, log := [] }
        = (.ret (.ok descriptions), w')
      ∧ w'.log.length = 3 ∧ descriptions.length = 6
      ∧ List.Forall₂ Describes descriptions (threePages.flatMap pageInstances))
    ∧ (DescribeInstances taggedStub.plugin 1 ∅ { st := 0, log := [] }).1
        = .ret (.ok [{ ID := "i-7", LogicalID := none, Tags := AList.singleton "env" "prod" }]) := by
  refine ⟨?_, rfl⟩
  obtain ⟨ds, w', hrun, _, hlen, hdesc, _, hcount⟩ :=
    DescribeInstances_pagination pagedStub.plugin ∅ 0 threePages 3
      ⟨rfl, rfl, rfl, rfl, rfl, rfl⟩ (by decide) (by decide)
  exact ⟨ds, w', hrun, hlen, hcount, hdesc⟩

/-- C4, the code at the failing input: the payload `[null]` parses, the spec
has a logical ID and two attachments, and the provider would answer the
describe-volumes call with one volume.  Line 112 assigns through the nil
pointer `NetworkInterfaces[0]`: `Provision` panics, whatever the fuel, before
any call to the provider, where the claim has it return a nil instance ID
and an error.  With the same payload and no logical ID the volume count check
is reached and answers as the claim says. -/
theorem Provision_null_interface_faults (fuel : Nat) :
    addressedTwoVolumeSpec.Properties = some "payload"
      ∧ decodeAs nullInterfaceRequest "payload" = .ok nullInterfaceRequest
      ∧ addressedTwoVolumeSpec.Attachments = ["10.0.0.5", "10.0.0.6"]
      ∧ (happyStub.plugin.client.DescribeVolumes (volumesInput addressedTwoVolumeSpec) 0).1
          = .ok { Volumes := [{ VolumeId := some "vol-1" }] }
      ∧ Provision happyStub.plugin (decodeAs nullInterfaceRequest) fuel addressedTwoVolumeSpec
          { st := 0, log := [] }
        = (.fault "nil pointer dereference", { st := 0, log := [] })
      ∧ (Provision happyStub.plugin (decodeAs nullInterfaceRequest) fuel twoVolumeSpec
          { st := 0, log := [] }).1
        = .ret (none, some (volumeMismatch twoVolumeSpec
            { Volumes := [{ VolumeId := some "vol-1" }] })) :=
  ⟨rfl, rfl, rfl, rfl, rfl, rfl⟩

/-- Two attachments requested, one volume found; the error text is the one
`fmt.Errorf` makes. -/
theorem Provision_volume_mismatch_of_prepared_witness :
    (Provision happyStub.plugin (decodeAs emptyRequest) 0 twoVolumeSpec
        { st := 0, log := [] }).1
      = .ret (none, some (volumeMismatch twoVolumeSpec
          { Volumes := [{ VolumeId := some "vol-1" }] }))
    ∧ (Provision happyStub.plugin (decodeAs emptyRequest) 0 twoVolumeSpec
        { st := 0, log := [] }).2.log = [Event.describeVolumes (volumesInput twoVolumeSpec)]
    ∧ (volumeMismatch twoVolumeSpec { Volumes := [{ VolumeId := some "vol-1" }] }).text
      = "Not all required volumes found to attach.  Wanted [10.0.0.5 10.0.0.6], found [\x7b\n  VolumeId: \"vol-1\"\n\x7d]" :=
  have h := Provision_volume_mismatch_of_prepared happyStub.plugin (decodeAs emptyRequest) 0
    twoVolumeSpec 0 "payload" emptyRequest singleIssued
    { Volumes := [{ VolumeId := some "vol-1" }] } rfl rfl rfl (by decide) rfl (by decide)
  ⟨h.1, h.2.1, by decide⟩

/-- One volume resolved, the instance created, the tagging refused. -/
theorem Provision_tag_failure_witness :
    (Provision tagFailStub.plugin (decodeAs emptyRequest) 5 oneVolumeSpec
        { st := 0, log := [] }).1 = .ret (some "i-1", some tagFailure) :=
  (Provision_tag_failure tagFailStub.plugin (decodeAs emptyRequest) 5 oneVolumeSpec 0
    "payload" emptyRequest singleIssued [some "vol-1"]
    { st := 1, log := [Event.describeVolumes (volumesInput oneVolumeSpec)] }
    (instanceOf "i-1" "10.0.0.5") "i-1" tagFailure rfl rfl rfl rfl rfl rfl rfl).1

/-- A payload asking for five to nine instances: the request issued asks for one. -/
theorem Provision_single_instance_witness :
    manyRequest.RunInstancesInput.MinCount = some 5
      ∧ manyRequest.RunInstancesInput.MaxCount = some 9
      ∧ Event.runInstances singleIssued
        ∈ (Provision happyStub.plugin (decodeAs manyRequest) 0 plainSpec
            { st := 0, log := [] }).2.log
      ∧ singleIssued.MinCount = some 1
      ∧ singleIssued.MaxCount = some 1 :=
  have hmem : Event.runInstances singleIssued
      ∈ (Provision happyStub.plugin (decodeAs manyRequest) 0 plainSpec
          { st := 0, log := [] }).2.log := by decide
  have h := Provision_single_instance happyStub.plugin (decodeAs manyRequest) 0 plainSpec 0
    singleIssued hmem
  ⟨rfl, rfl, hmem, h.1, h.2⟩

/-- A logical ID and no declared interface: the address is at the top level. -/
theorem Provision_logicalID_routing_witness :
    Event.runInstances addressedIssued
        ∈ (Provision happyStub.plugin (decodeAs emptyRequest) 0 addressedSpec
            { st := 0, log := [] }).2.log
      ∧ addressedIssued.PrivateIpAddress = some "10.0.0.5"
      ∧ addressedIssued.NetworkInterfaces = [] :=
  have hmem : Event.runInstances addressedIssued
      ∈ (Provision happyStub.plugin (decodeAs emptyRequest) 0 addressedSpec
          { st := 0, log := [] }).2.log := by decide
  have h := (Provision_logicalID_routing happyStub.plugin (decodeAs emptyRequest) 0
    addressedSpec 0 addressedIssued "payload" emptyRequest "10.0.0.5" hmem rfl rfl rfl).1 rfl
  ⟨hmem, h.1, h.2⟩

/-- C7 fails as stated: the payload sets the top-level private address and
declares an interface, the spec has that address as logical ID, and the request
`Provision` issues carries it both at the top level and on the interface. -/
theorem Provision_logicalID_both_places :
    addressedSpec.LogicalID = some "10.0.0.5"
      ∧ (Provision happyStub.plugin (decodeAs bothPlacesRequest) 0 addressedSpec
          { st := 0, log := [] }).2.log.head? = some (Event.runInstances bothPlacesIssued)
      ∧ bothPlacesIssued.PrivateIpAddress = some "10.0.0.5"
      ∧ bothPlacesIssued.NetworkInterfaces.map
            (fun n => n.bind (fun iface => iface.PrivateIpAddress))
          = [some "10.0.0.5"] := by
  decide

/-- The script `echo hi`: the user data issued is its base64 encoding. -/
theorem Provision_user_data_witness :
    Event.runInstances echoIssued
        ∈ (Provision happyStub.plugin (decodeAs emptyRequest) 0 initSpec
            { st := 0, log := [] }).2.log
      ∧ echoIssued.UserData = some (base64Encode "echo hi")
      ∧ base64Encode "echo hi" = "ZWNobyBoaQ==" :=
  have hmem : Event.runInstances echoIssued
      ∈ (Provision happyStub.plugin (decodeAs emptyRequest) 0 initSpec
          { st := 0, log := [] }).2.log := by decide
  ⟨hmem,
    (Provision_user_data happyStub.plugin (decodeAs emptyRequest) 0 initSpec 0 echoIssued
      "payload" emptyRequest hmem rfl rfl).1 (by decide),
    by decide⟩

/-- C8 fails as stated: the spec has no initialization script, the payload
carries user data, and the request `Provision` issues has user data set. -/
theorem Provision_user_data_from_payload :
    plainSpec.Init = ""
      ∧ (Provision happyStub.plugin (decodeAs userDataRequest) 0 plainSpec
          { st := 0, log := [] }).2.log.head? = some (Event.runInstances userDataIssued)
      ∧ userDataIssued.UserData = some "eA=="
      ∧ userDataIssued.UserData ≠ none := by
  decide

/-- A terminate call reporting no, one and two instances. -/
theorem Destroy_cardinality_witness :
    (Destroy (terminateStub []).plugin "i-1" { st := 0, log := [] }).1
        = some (errorsNew "No matching instance")
      ∧ (Destroy (terminateStub ["i-1"]).plugin "i-1" { st := 0, log := [] }).1 = none
      ∧ (Destroy (terminateStub ["i-1", "i-2"]).plugin "i-1" { st := 0, log := [] }).1
        = some (errorsNew "No matching instance") :=
  ⟨(Destroy_cardinality (terminateStub []).plugin "i-1" 0).2.2.1 _ rfl (by decide),
    (Destroy_cardinality (terminateStub ["i-1"]).plugin "i-1" 0).2.1.2 ⟨_, rfl, rfl⟩,
    (Destroy_cardinality (terminateStub ["i-1", "i-2"]).plugin "i-1" 0).2.2.1 _ rfl
      (by decide)⟩

/-- C10, the code at the failing input: the volume resolves, the instance is
created and tagged, and the first poll answers without error and without any
reservation.  `Provision` indexes the empty slice and panics, whatever the
fuel, while `describeInstance` answers the same response with the error
"Instance not found". -/
theorem Provision_poll_empty_faults (fuel : Nat) :
    (Provision emptyPollStub.plugin (decodeAs emptyRequest) (fuel + 1) oneVolumeSpec
        { st := 0, log := [] }).1 = .fault "index out of range [0] with length 0"
      ∧ (describeInstance emptyPollStub.plugin "i-1" { st := 0, log := [] }).1
        = .error (errorsNew "Instance not found") :=
  ⟨rfl, rfl⟩

end InfrakitAws
